import Mathlib

/-!
# The scraper of `reader/scraper/scraper.go`

A shallow embedding of the package `scraper` and the properties of its
functions `isAllowedContentType`, `getPredefinedScraperRules`, `scrapContent`,
`readabilityContent` and `Fetch`.

Conventions of the embedding.

* A Go `string` holding UTF-8 text is a Lean `String`, the sequence of its
  runes; on such strings the byte-wise `strings.HasPrefix` and
  `strings.Contains` of Go agree with the rune-wise functions below.
* A Go `error` is an `Option String`: `none` is `nil`, `some msg` is an error
  whose `Error()` text is `msg`.
* A Go result `(string, error)` is kept as a pair, so that a callee is free to
  hand back a text together with an error, as the Go type allows.
* Code the package imports (the HTTP client, `goquery`, the two readability
  engines, `url.Domain`, `unicode.ToLower`) is a field of `World`; the map
  `predefinedRules` is passed as the list of its entries in the order in which
  the `range` statement visits them.
* Every call that leaves the package is recorded as an `Event`, in call order.
-/

namespace Scraper

/-! ## Strings -/

/-- Go `strings.ToLower(s)`: every rune of `s` is mapped by `unicode.ToLower`,
which is the argument `lower`. -/
def ToLower (lower : Char → Char) (s : String) : String :=
  ⟨s.data.map lower⟩

/-- Go `strings.HasPrefix(s, p)`: `len(s) >= len(p) && s[:len(p)] == p`. -/
def HasPrefix (s p : String) : Bool :=
  decide (p.data.length ≤ s.data.length) && (s.data.take p.data.length == p.data)

/-- Go `strings.Index(s, substr) >= 0`, searched from offset `i` of `s` on:
`t` is `s[i:]`. -/
def containsFrom (substr : String) : List Char → Bool
  | [] => HasPrefix ⟨[]⟩ substr
  | c :: t => HasPrefix ⟨c :: t⟩ substr || containsFrom substr t

/-- Go `strings.Contains(s, substr)`. -/
def Contains (s substr : String) : Bool :=
  containsFrom substr s.data

/-- The ASCII part of `unicode.ToLower`: `c += 'a' - 'A'` for `'A' <= c <= 'Z'`,
every other rune left as it is. -/
def asciiToLower (c : Char) : Char :=
  if 65 ≤ c.toNat ∧ c.toNat ≤ 90 then Char.ofNat (c.toNat + 32) else c

/-- What is used of `unicode.ToLower`: on the ASCII runes it is `asciiToLower`. -/
def LowersASCII (lower : Char → Char) : Prop :=
  ∀ c : Char, c.toNat < 128 → lower c = asciiToLower c

/-! ## The content-type gate -/

/-- Source lines 133-137. -/
def isAllowedContentType (lower : Char → Char) (contentType : String) : Bool :=
  let contentType := ToLower lower contentType
  HasPrefix contentType "text/html" ||
    HasPrefix contentType "application/xhtml+xml"

/-! ## Errors, responses, events -/

/-- A Go `error` value: `none` is `nil`, `some msg` has `Error()` text `msg`. -/
abbrev error := Option String

/-- A `client.Response`: the fields the scraper reads, and the status code
on which `HasServerFailure` may depend. -/
structure Response where
  EffectiveURL : String
  ContentType : String
  Body : String
  StatusCode : Nat
deriving DecidableEq, Inhabited

/-- One call that leaves the package, with the arguments it was given. -/
inductive Event (URL : Type) where
  /-- `clt.Get()` on the client built for `websiteURL` (lines 30-38). -/
  | clientGet (websiteURL userAgent cookie : String)
      (allowSelfSignedCertificates useProxy : Bool)
  /-- `response.EnsureUnicodeBody()` (line 51). -/
  | ensureUnicodeBody
  /-- `getPredefinedScraperRules(websiteURL)` (line 59). -/
  | predefinedRules (websiteURL : String)
  /-- `gurl.ParseRequestURI(website)` (line 99). -/
  | parseRequestURI (website : String)
  /-- `httpClient.Get(website)` (line 106). -/
  | httpGet (website : String)
  /-- `parser.Parse(resp.Body, parsedURL)` (line 114). -/
  | alternateParse (body : String) (parsedURL : URL)
  /-- `goquery.NewDocumentFromReader(page)` (line 82). -/
  | newDocument (page : String)
  /-- `document.Find(rules)` (line 88). -/
  | find (rules : String)
  /-- `goquery.OuterHtml(s)` for the match of index `i` (line 91). -/
  | outerHtml (i : Nat)
  /-- `readability.ExtractContent(page)` (line 71). -/
  | extractContent (page : String)
deriving DecidableEq

namespace Event

variable {URL : Type}

/-- Encoding normalization. -/
def isEncoding : Event URL → Bool
  | ensureUnicodeBody => true
  | _ => false

/-- Rule resolution: the lookup in the table of predefined rules. -/
def isRuleResolution : Event URL → Bool
  | predefinedRules _ => true
  | _ => false

/-- The selector engine (`goquery`). -/
def isSelector : Event URL → Bool
  | newDocument _ => true
  | find _ => true
  | outerHtml _ => true
  | _ => false

/-- The heuristic readability engine (`readability.ExtractContent`). -/
def isHeuristic : Event URL → Bool
  | extractContent _ => true
  | _ => false

/-- The alternate readability path: URL check, second fetch, `go-readability`. -/
def isAlternate : Event URL → Bool
  | parseRequestURI _ => true
  | httpGet _ => true
  | alternateParse _ _ => true
  | _ => false

end Event

/-- A Go result `(string, error)` together with the calls made to produce it. -/
structure Result (URL : Type) where
  content : String
  err : error
  trace : List (Event URL)

/-- The code the package calls and does not define. `Document`, `Node` and
`URL` stand for `*goquery.Document`, a matched node and `*url.URL`. -/
structure World (Document Node URL : Type) where
  /-- `unicode.ToLower`, used by `strings.ToLower`. -/
  unicodeToLower : Char → Char
  /-- `clt.Get()` for the client configured by lines 30-36. -/
  Get : (websiteURL userAgent cookie : String) →
    (allowSelfSignedCertificates useProxy : Bool) → Response × error
  /-- `response.HasServerFailure()`. -/
  HasServerFailure : Response → Bool
  /-- `response.EnsureUnicodeBody()`: the response after the call, and the error. -/
  EnsureUnicodeBody : Response → Response × error
  /-- `url.Domain`. -/
  Domain : String → String
  /-- The entries of the map `predefinedRules`, in the order in which the
  `range` of line 124 visits them in this run. -/
  predefinedRules : List (String × String)
  /-- `gurl.ParseRequestURI`. -/
  ParseRequestURI : String → URL × error
  /-- `httpClient.Get(website)`: the body of the response, and the error. -/
  httpGet : String → String × error
  /-- `ra.NewParser().Parse(body, parsedURL)`: `article.Content`, and the error. -/
  Parse : String → URL → String × error
  /-- `goquery.NewDocumentFromReader`. -/
  NewDocumentFromReader : String → Document × error
  /-- `document.Find(rules)`: the matched nodes, in the order `Each` visits them. -/
  Find : Document → String → List Node
  /-- `goquery.OuterHtml`. -/
  OuterHtml : Node → String × error
  /-- `readability.ExtractContent`. -/
  ExtractContent : String → String × error

/-! ## The package -/

section Package

variable {Document Node URL : Type}

/-- The loop of source lines 124-130 over the entries still to visit. -/
def rangeRules (urlDomain : String) : List (String × String) → String
  | [] => ""
  | (domain, rules) :: rest =>
    if Contains urlDomain domain then rules else rangeRules urlDomain rest

/-- Source lines 121-131. The `range` of line 124 yields a key that is passed
to `strings.Contains` and a value that is returned as a `string`, so
`predefinedRules` is a Go map from strings to strings; the order in which a
`range` visits the entries of a map is left open by the language and changes
from one loop to the next. The argument `predefinedRules` lists the entries in
the order in which this call visits them: any arrangement of the entries of
the map. -/
def getPredefinedScraperRules (Domain : String → String)
    (predefinedRules : List (String × String)) (websiteURL : String) : String :=
  let urlDomain := Domain websiteURL
  rangeRules urlDomain predefinedRules

/-- Source lines 81-96. The error of `goquery.OuterHtml` is dropped (line 91). -/
def scrapContent (w : World Document Node URL) (page rules : String) : Result URL :=
  match w.NewDocumentFromReader page with
  | (_, some err) => ⟨"", some err, [Event.newDocument page]⟩
  | (document, none) =>
    let selection := w.Find document rules
    let contents := selection.foldl (fun contents s => contents ++ (w.OuterHtml s).1) ""
    ⟨contents, none,
      Event.newDocument page :: Event.find rules ::
        (List.range selection.length).map Event.outerHtml⟩

/-- Source lines 98-119. -/
def readabilityContent (w : World Document Node URL) (website : String) : Result URL :=
  match w.ParseRequestURI website with
  | (_, some _) => ⟨"", some "scraper: invalid url", [Event.parseRequestURI website]⟩
  | (parsedURL, none) =>
    match w.httpGet website with
    | (_, some _) =>
      ⟨"", some "scraper: invalid url", [Event.parseRequestURI website, Event.httpGet website]⟩
    | (respBody, none) =>
      match w.Parse respBody parsedURL with
      | (_, some _) =>
        ⟨"", some "scraper: invalid url",
          [Event.parseRequestURI website, Event.httpGet website,
            Event.alternateParse respBody parsedURL]⟩
      | (content, none) =>
        ⟨content, none,
          [Event.parseRequestURI website, Event.httpGet website,
            Event.alternateParse respBody parsedURL]⟩

/-- Source lines 29-79. -/
def Fetch (w : World Document Node URL) (websiteURL rules userAgent cookie : String)
    (allowSelfSignedCertificates useProxy : Bool) : Result URL :=
  let t0 : List (Event URL) :=
    [Event.clientGet websiteURL userAgent cookie allowSelfSignedCertificates useProxy]
  match w.Get websiteURL userAgent cookie allowSelfSignedCertificates useProxy with
  | (_, some err) => ⟨"", some err, t0⟩
  | (response, none) =>
    if w.HasServerFailure response then
      ⟨"", some "scraper: unable to download web page", t0⟩
    else if !isAllowedContentType w.unicodeToLower response.ContentType then
      ⟨"", some ("scraper: this resource is not a HTML document (" ++
        response.ContentType ++ ")"), t0⟩
    else
      match w.EnsureUnicodeBody response with
      | (_, some err) => ⟨"", some err, t0 ++ [Event.ensureUnicodeBody]⟩
      | (response, none) =>
        let t1 := t0 ++ [Event.ensureUnicodeBody]
        -- The entry URL could redirect somewhere else.
        let websiteURL := response.EffectiveURL
        let resolved : String × List (Event URL) :=
          if rules = "" then
            (getPredefinedScraperRules w.Domain w.predefinedRules websiteURL,
              t1 ++ [Event.predefinedRules websiteURL])
          else (rules, t1)
        let rules := resolved.1
        let t2 := resolved.2
        let r : Result URL :=
          if rules = "ra" then readabilityContent w websiteURL
          else if rules ≠ "" then scrapContent w response.Body rules
          else
            let e := w.ExtractContent response.Body
            ⟨e.1, e.2, [Event.extractContent response.Body]⟩
        if r.err ≠ none then ⟨"", r.err, t2 ++ r.trace⟩
        else ⟨r.content, none, t2 ++ r.trace⟩

end Package

/-! ## Example data -/

/-- The host of a URL written `http://host/path`: what `url.Domain` gives on
such a URL. It stands for `url.Domain` in the examples. -/
def exampleDomain (websiteURL : String) : String :=
  ⟨(websiteURL.data.drop 7).takeWhile (fun c => c != '/')⟩

/-- A table with two keys, one a substring of the other, in the order of the
map literal. -/
def exampleRules : List (String × String) :=
  [("example.com", ".post"), ("sub.example.com", "article")]

/-- The entries of `exampleRules` in the order of a `range` over the map that
starts at the second entry and wraps around. -/
def exampleRulesVisited : List (String × String) :=
  [("sub.example.com", "article"), ("example.com", ".post")]

/-- The response of the example fetcher to a `GET` of `websiteURL`. -/
def exampleResponse (websiteURL : String) : Response :=
  if websiteURL = "http://a.example/x" then
    ⟨"http://b.example/y", "text/html", "<html>b</html>", 200⟩
  else if websiteURL = "http://img.example/logo.png" then
    ⟨websiteURL, "image/png", "PNG", 200⟩
  else
    ⟨websiteURL, "Text/HTML; charset=utf-8", "<html>page</html>", 200⟩

/-- A world for the examples. Its fetcher redirects `http://a.example/x` to
`http://b.example/y`, its selector engine finds the nodes `<p>1</p>` and
`<p>2</p>` for the selector `p` and nothing for any other, its heuristic
engine extracts `<article>b</article>` from the page `<html>b</html>` and
returns a text together with an error on any other page, and its alternate
engine fails on the page of `http://down.example/`. -/
def exampleWorld : World String String String where
  unicodeToLower := asciiToLower
  Get := fun websiteURL _ _ _ _ => (exampleResponse websiteURL, none)
  HasServerFailure := fun response => decide (400 ≤ response.StatusCode)
  EnsureUnicodeBody := fun response => (response, none)
  Domain := exampleDomain
  predefinedRules := exampleRulesVisited
  ParseRequestURI := fun website =>
    if website.data.take 7 = "http://".data then (website, none)
    else ("", some "invalid URI for request")
  httpGet := fun website =>
    if website = "http://down.example/" then ("", some "connection refused")
    else ("<html>second fetch</html>", none)
  Parse := fun body _ =>
    if body = "" then ("", some "empty page") else ("<div>article</div>", none)
  NewDocumentFromReader := fun page => (page, none)
  Find := fun _ rules => if rules = "p" then ["<p>1</p>", "<p>2</p>"] else []
  OuterHtml := fun node => (node, none)
  ExtractContent := fun page =>
    if page = "<html>b</html>" then ("<article>b</article>", none)
    else ("<p>half</p>", some "readability: no candidate")

/-- Spec wording for `scrapContent`: the texts one after the other, in order,
with nothing between them. -/
def concatenation : List String → String
  | [] => ""
  | s :: rest => s ++ concatenation rest

/-! ## Strings: the Go functions against the list relations -/

theorem hasPrefix_iff (s p : String) : HasPrefix s p = true ↔ p.data <+: s.data := by
  unfold HasPrefix
  constructor
  · intro h
    simp only [Bool.and_eq_true, decide_eq_true_eq, beq_iff_eq] at h
    refine ⟨s.data.drop p.data.length, ?_⟩
    have h2 := List.take_append_drop p.data.length s.data
    rw [h.2] at h2
    exact h2
  · rintro ⟨rest, h⟩
    simp [← h]

theorem containsFrom_iff (substr : String) (t : List Char) :
    containsFrom substr t = true ↔ substr.data <:+: t := by
  induction t with
  | nil =>
    simp only [containsFrom, hasPrefix_iff]
    constructor
    · intro h
      exact h.isInfix
    · intro h
      have := List.eq_nil_of_infix_nil h
      rw [this]
  | cons c t ih =>
    simp only [containsFrom, Bool.or_eq_true, hasPrefix_iff, ih, List.infix_cons_iff]

theorem contains_iff (s substr : String) :
    Contains s substr = true ↔ substr.data <:+: s.data :=
  containsFrom_iff substr s.data

theorem asciiToLower_ascii (c : Char) (h : (asciiToLower c).toNat < 128) :
    c.toNat < 128 := by
  unfold asciiToLower at h
  split at h
  · omega
  · exact h

theorem map_lower_eq (lower : Char → Char) (hl : LowersASCII lower) (l : List Char)
    (h : ∀ c ∈ l.map asciiToLower, c.toNat < 128) :
    l.map lower = l.map asciiToLower := by
  apply List.map_congr_left
  intro c hc
  apply hl
  apply asciiToLower_ascii
  exact h _ (List.mem_map_of_mem _ hc)

theorem isAllowedContentType_iff (lower : Char → Char) (contentType : String) :
    isAllowedContentType lower contentType = true ↔
      "text/html".data <+: (ToLower lower contentType).data ∨
      "application/xhtml+xml".data <+: (ToLower lower contentType).data := by
  simp only [isAllowedContentType, Bool.or_eq_true, hasPrefix_iff]

theorem isAllowedContentType_of_spelling (lower : Char → Char) (hl : LowersASCII lower)
    (spelling suffix p : String) (hp : ∀ c ∈ p.data, c.toNat < 128)
    (hs : spelling.data.map asciiToLower = p.data) :
    p.data <+: (ToLower lower (spelling ++ suffix)).data := by
  have h1 : spelling.data.map lower = p.data := by
    rw [map_lower_eq lower hl spelling.data (by rw [hs]; exact hp), hs]
  refine ⟨suffix.data.map lower, ?_⟩
  simp [ToLower, h1]

/-! ## The table lookup -/

theorem rangeRules_first (urlDomain : String) (l : List (String × String)) :
    (∃ before e after, l = before ++ e :: after ∧
        (∀ x ∈ before, ¬ x.1.data <:+: urlDomain.data) ∧
        e.1.data <:+: urlDomain.data ∧ rangeRules urlDomain l = e.2) ∨
      ((∀ x ∈ l, ¬ x.1.data <:+: urlDomain.data) ∧ rangeRules urlDomain l = "") := by
  induction l with
  | nil => right; simp [rangeRules]
  | cons a l ih =>
    obtain ⟨domain, rules⟩ := a
    by_cases h : Contains urlDomain domain = true
    · left
      refine ⟨[], (domain, rules), l, rfl, by simp, (contains_iff _ _).1 h, ?_⟩
      simp [rangeRules, h]
    · have hn : ¬ domain.data <:+: urlDomain.data := fun hc => h ((contains_iff _ _).2 hc)
      rcases ih with ⟨before, e, after, hl, hb, he, hr⟩ | ⟨hall, hr⟩
      · left
        refine ⟨(domain, rules) :: before, e, after, by simp [hl], ?_, he, ?_⟩
        · intro x hx
          rcases List.mem_cons.1 hx with rfl | hx
          · exact hn
          · exact hb x hx
        · simp [rangeRules, h, hr]
      · right
        refine ⟨?_, ?_⟩
        · intro x hx
          rcases List.mem_cons.1 hx with rfl | hx
          · exact hn
          · exact hall x hx
        · simp [rangeRules, h, hr]

theorem rangeRules_mem (urlDomain : String) (l : List (String × String))
    (h : ∃ e ∈ l, e.1.data <:+: urlDomain.data) :
    ∃ e ∈ l, e.1.data <:+: urlDomain.data ∧ rangeRules urlDomain l = e.2 := by
  rcases rangeRules_first urlDomain l with ⟨before, e, after, hl, _, he, hr⟩ | ⟨hall, _⟩
  · exact ⟨e, by simp [hl], he, hr⟩
  · obtain ⟨e, hm, he⟩ := h
    exact absurd he (hall e hm)

theorem rangeRules_unset (urlDomain : String) (l : List (String × String))
    (h : ∀ e ∈ l, ¬ e.1.data <:+: urlDomain.data) : rangeRules urlDomain l = "" := by
  rcases rangeRules_first urlDomain l with ⟨before, e, after, hl, _, he, _⟩ | ⟨_, hr⟩
  · exact absurd he (h e (by simp [hl]))
  · exact hr

/-! ## The claims -/

/-- C1: for a rune mapping `lower` that acts on ASCII as `unicode.ToLower`
does, `isAllowedContentType` is true exactly when the lower-cased content type
starts with `text/html` or with `application/xhtml+xml`; it is false for the
empty string, true for every spelling of one of the two in upper, lower or
mixed case followed by any suffix, and true for `Text/HTML; charset=utf-8`. -/
theorem isAllowedContentType_iff_lowered_starts (lower : Char → Char)
    (hl : LowersASCII lower) (contentType : String) :
    (isAllowedContentType lower contentType = true ↔
      "text/html".data <+: (ToLower lower contentType).data ∨
      "application/xhtml+xml".data <+: (ToLower lower contentType).data) ∧
    isAllowedContentType lower "" = false ∧
    (∀ spelling suffix : String,
      spelling.data.map asciiToLower = "text/html".data ∨
        spelling.data.map asciiToLower = "application/xhtml+xml".data →
      isAllowedContentType lower (spelling ++ suffix) = true) ∧
    isAllowedContentType lower "Text/HTML; charset=utf-8" = true := by
  have key : ∀ spelling suffix : String,
      spelling.data.map asciiToLower = "text/html".data ∨
        spelling.data.map asciiToLower = "application/xhtml+xml".data →
      isAllowedContentType lower (spelling ++ suffix) = true := by
    intro spelling suffix h
    rw [isAllowedContentType_iff]
    rcases h with h | h
    · exact Or.inl (isAllowedContentType_of_spelling lower hl spelling suffix _ (by decide) h)
    · exact Or.inr (isAllowedContentType_of_spelling lower hl spelling suffix _ (by decide) h)
  refine ⟨isAllowedContentType_iff lower contentType, ?_, key, ?_⟩
  · simp [isAllowedContentType, ToLower, HasPrefix]
  · exact key "Text/HTML" "; charset=utf-8" (Or.inl (by decide))

/-- C1 at the ASCII mapping and the header value `TEXT/HTML;q=1`. -/
theorem isAllowedContentType_iff_lowered_starts_witness :
    LowersASCII asciiToLower ∧ isAllowedContentType asciiToLower "TEXT/HTML;q=1" = true :=
  ⟨fun _ _ => rfl,
    (isAllowedContentType_iff_lowered_starts asciiToLower (fun _ _ => rfl) "").2.2.1
      "TEXT/HTML" ";q=1" (Or.inl (by decide))⟩

/-- C4, as stated, fails: the domain of `http://sub.example.com/a` contains
the keys of both entries of `exampleRules`, whose rules differ, and the
function returns one rule: visiting in the order of the table it returns
`.post`, not the rule of the entry `sub.example.com`, and visiting from the
second entry on it returns `article`, not the rule of the entry `example.com`. -/
theorem getPredefinedScraperRules_every_match_counterexample :
    ("example.com", ".post") ∈ exampleRules ∧
    "example.com".data <:+: (exampleDomain "http://sub.example.com/a").data ∧
    ("sub.example.com", "article") ∈ exampleRules ∧
    "sub.example.com".data <:+: (exampleDomain "http://sub.example.com/a").data ∧
    getPredefinedScraperRules exampleDomain exampleRules "http://sub.example.com/a" ≠
      "article" ∧
    getPredefinedScraperRules exampleDomain exampleRulesVisited "http://sub.example.com/a" ≠
      ".post" ∧
    ¬ (∀ e ∈ exampleRules, e.1.data <:+: (exampleDomain "http://sub.example.com/a").data →
      getPredefinedScraperRules exampleDomain exampleRules "http://sub.example.com/a" = e.2) ∧
    ¬ (∀ e ∈ exampleRules, e.1.data <:+: (exampleDomain "http://sub.example.com/a").data →
      getPredefinedScraperRules exampleDomain exampleRulesVisited "http://sub.example.com/a" =
        e.2) := by
  refine ⟨by decide, by decide, by decide, by decide, by decide, by decide, by decide,
    by decide⟩

/-- C4, amended: whatever the order in which the entries are visited, when the
domain of the URL contains the key of some entry of the table the function
returns the rule of an entry whose key the domain contains; that is the rule
of a given matching entry whenever all the entries whose key the domain
contains carry that rule, as when only one entry matches; when the domain
contains no key the function returns the empty string. -/
theorem getPredefinedScraperRules_hit_or_unset (Domain : String → String)
    (predefinedRules : List (String × String)) (websiteURL : String) :
    ((∃ e ∈ predefinedRules, e.1.data <:+: (Domain websiteURL).data) →
      ∃ e ∈ predefinedRules, e.1.data <:+: (Domain websiteURL).data ∧
        getPredefinedScraperRules Domain predefinedRules websiteURL = e.2) ∧
    (∀ e ∈ predefinedRules, e.1.data <:+: (Domain websiteURL).data →
      (∀ x ∈ predefinedRules, x.1.data <:+: (Domain websiteURL).data → x.2 = e.2) →
      getPredefinedScraperRules Domain predefinedRules websiteURL = e.2) ∧
    ((∀ e ∈ predefinedRules, ¬ e.1.data <:+: (Domain websiteURL).data) →
      getPredefinedScraperRules Domain predefinedRules websiteURL = "") := by
  refine ⟨fun h => rangeRules_mem _ _ h, ?_, fun h => rangeRules_unset _ _ h⟩
  intro e he hm hall
  obtain ⟨x, hx, hxm, hr⟩ := rangeRules_mem (Domain websiteURL) predefinedRules ⟨e, he, hm⟩
  exact hr.trans (hall x hx hxm)

/-- C4, amended, on a table of two entries: a URL of `lemonde.fr` matches one
entry and gets its rule, a URL of another site gets the empty string. -/
theorem getPredefinedScraperRules_hit_or_unset_witness :
    getPredefinedScraperRules exampleDomain
        [("github.com", "article.entry-content"), ("lemonde.fr", "article")]
        "http://www.lemonde.fr/a.html" = "article" ∧
      getPredefinedScraperRules exampleDomain
        [("github.com", "article.entry-content"), ("lemonde.fr", "article")]
        "http://example.org/" = "" :=
  ⟨(getPredefinedScraperRules_hit_or_unset exampleDomain
      [("github.com", "article.entry-content"), ("lemonde.fr", "article")]
      "http://www.lemonde.fr/a.html").2.1 ("lemonde.fr", "article") (by decide) (by decide)
      (by decide),
    (getPredefinedScraperRules_hit_or_unset exampleDomain
      [("github.com", "article.entry-content"), ("lemonde.fr", "article")]
      "http://example.org/").2.2 (by decide)⟩

/-- C5, as stated, fails: the table `exampleRules` visited from its second
entry on (a run the `range` over a Go map may take) gives `article` for a URL
of `sub.example.com`, whose earliest matching entry in the order of the table
is `example.com` with rule `.post`; a run that visits in the order of the
table gives `.post`, so two calls with the same URL differ. -/
theorem getPredefinedScraperRules_insertion_order_counterexample :
    exampleRulesVisited.Perm exampleRules ∧
    exampleRules.head? = some ("example.com", ".post") ∧
    "example.com".data <:+: (exampleDomain "http://sub.example.com/a").data ∧
    getPredefinedScraperRules exampleDomain exampleRulesVisited
      "http://sub.example.com/a" = "article" ∧
    getPredefinedScraperRules exampleDomain exampleRules
      "http://sub.example.com/a" = ".post" ∧
    getPredefinedScraperRules exampleDomain exampleRulesVisited "http://sub.example.com/a" ≠
      getPredefinedScraperRules exampleDomain exampleRules "http://sub.example.com/a" := by
  refine ⟨List.Perm.swap _ _ _, rfl, by decide, by decide, by decide, by decide⟩

/-- C5, amended: the function returns the rule of the first entry, in the
order in which this call visits the entries, whose key is a substring of the
domain of the URL, and the empty string when there is none; two calls that
visit the same entries in different orders return the same rule whenever the
entries whose key the domain contains all carry the same rule. -/
theorem getPredefinedScraperRules_first_visited (Domain : String → String)
    (visited : List (String × String)) (websiteURL : String) :
    ((∃ before e after, visited = before ++ e :: after ∧
        (∀ x ∈ before, ¬ x.1.data <:+: (Domain websiteURL).data) ∧
        e.1.data <:+: (Domain websiteURL).data ∧
        getPredefinedScraperRules Domain visited websiteURL = e.2) ∨
      ((∀ x ∈ visited, ¬ x.1.data <:+: (Domain websiteURL).data) ∧
        getPredefinedScraperRules Domain visited websiteURL = "")) ∧
    (∀ other : List (String × String), other.Perm visited →
      (∀ x ∈ visited, ∀ y ∈ visited, x.1.data <:+: (Domain websiteURL).data →
        y.1.data <:+: (Domain websiteURL).data → x.2 = y.2) →
      getPredefinedScraperRules Domain other websiteURL =
        getPredefinedScraperRules Domain visited websiteURL) := by
  refine ⟨rangeRules_first _ _, ?_⟩
  intro other hperm hagree
  by_cases h : ∃ e ∈ visited, e.1.data <:+: (Domain websiteURL).data
  · obtain ⟨x, hx, hxm, hrx⟩ := rangeRules_mem (Domain websiteURL) visited h
    obtain ⟨e, he, hem⟩ := h
    obtain ⟨y, hy, hym, hry⟩ :=
      rangeRules_mem (Domain websiteURL) other ⟨e, hperm.mem_iff.2 he, hem⟩
    unfold getPredefinedScraperRules
    rw [hrx, hry]
    exact hagree y (hperm.mem_iff.1 hy) x hx hym hxm
  · have hv : ∀ e ∈ visited, ¬ e.1.data <:+: (Domain websiteURL).data :=
      fun e he hm => h ⟨e, he, hm⟩
    have ho : ∀ e ∈ other, ¬ e.1.data <:+: (Domain websiteURL).data :=
      fun e he hm => h ⟨e, hperm.mem_iff.1 he, hm⟩
    unfold getPredefinedScraperRules
    rw [rangeRules_unset _ _ hv, rangeRules_unset _ _ ho]

/-- C5, amended, on `exampleRules`: for a URL of `www.example.com` only the
entry `example.com` matches, and both visiting orders give `.post`. -/
theorem getPredefinedScraperRules_first_visited_witness :
    exampleRulesVisited.Perm exampleRules ∧
      getPredefinedScraperRules exampleDomain exampleRulesVisited "http://www.example.com/a" =
        getPredefinedScraperRules exampleDomain exampleRules "http://www.example.com/a" :=
  ⟨List.Perm.swap _ _ _,
    (getPredefinedScraperRules_first_visited exampleDomain exampleRules
      "http://www.example.com/a").2 exampleRulesVisited (List.Perm.swap _ _ _) (by decide)⟩

/-! ## The two extraction functions of the package -/

theorem foldl_append_eq {α : Type} (f : α → String) (l : List α) (init : String) :
    l.foldl (fun contents s => contents ++ f s) init = init ++ concatenation (l.map f) := by
  induction l generalizing init with
  | nil => simp [concatenation]
  | cons a l ih =>
    simp only [List.foldl_cons, List.map_cons, concatenation, ih, String.append_assoc]

/-- C6: on a page that `goquery` parses, `scrapContent` returns no error and
the outer HTML of the matched nodes, one after the other in the order of the
selection with nothing between them; with no matched node that is the empty string. -/
theorem scrapContent_concatenates {Document Node URL : Type} (w : World Document Node URL)
    (page rules : String) (document : Document)
    (hparse : w.NewDocumentFromReader page = (document, none)) :
    (scrapContent w page rules).err = none ∧
    (scrapContent w page rules).content =
      concatenation ((w.Find document rules).map (fun s => (w.OuterHtml s).1)) ∧
    (w.Find document rules = [] → (scrapContent w page rules).content = "") ∧
    (∀ first second : Node, w.Find document rules = [first, second] →
      (scrapContent w page rules).content = (w.OuterHtml first).1 ++ (w.OuterHtml second).1) := by
  have hc : (scrapContent w page rules).content =
      concatenation ((w.Find document rules).map (fun s => (w.OuterHtml s).1)) := by
    simp [scrapContent, hparse, foldl_append_eq]
  refine ⟨by simp [scrapContent, hparse], hc, ?_, ?_⟩
  · intro h
    rw [hc, h]
    rfl
  · intro first second h
    rw [hc, h]
    simp [concatenation]

/-- C6 in the example world: the selector `p` matches two nodes and the result
is their outer HTML with no separator. -/
theorem scrapContent_concatenates_witness :
    exampleWorld.NewDocumentFromReader "<html>page</html>" = ("<html>page</html>", none) ∧
      (scrapContent exampleWorld "<html>page</html>" "p").content = "<p>1</p><p>2</p>" :=
  ⟨rfl, ((scrapContent_concatenates exampleWorld "<html>page</html>" "p"
    "<html>page</html>" rfl).2.1).trans (by decide)⟩

/-- C8: when the URL is not a valid request URI, or the second fetch fails, or
the alternate engine fails, `readabilityContent` returns the empty string and
the error `scraper: invalid url`, whatever the error of the failed step was;
whenever it returns an error, that is the error and the content is empty. -/
theorem readabilityContent_failure_is_invalid_url {Document Node URL : Type}
    (w : World Document Node URL) (website : String) :
    ((w.ParseRequestURI website).2 ≠ none ∨ (w.httpGet website).2 ≠ none ∨
        (w.Parse (w.httpGet website).1 (w.ParseRequestURI website).1).2 ≠ none →
      (readabilityContent w website).content = "" ∧
        (readabilityContent w website).err = some "scraper: invalid url") ∧
    ((readabilityContent w website).err ≠ none →
      (readabilityContent w website).content = "" ∧
        (readabilityContent w website).err = some "scraper: invalid url") := by
  unfold readabilityContent
  rcases hp : w.ParseRequestURI website with ⟨parsedURL, _ | e1⟩
  · rcases hg : w.httpGet website with ⟨respBody, _ | e2⟩
    · rcases ha : w.Parse respBody parsedURL with ⟨content, _ | e3⟩ <;> simp [ha]
    · simp
  · simp

/-- C8 in the example world: the second fetch of `http://down.example/` fails
with `connection refused`, and the caller sees `scraper: invalid url`. -/
theorem readabilityContent_failure_is_invalid_url_witness :
    (exampleWorld.httpGet "http://down.example/").2 = some "connection refused" ∧
      (readabilityContent exampleWorld "http://down.example/").content = "" ∧
      (readabilityContent exampleWorld "http://down.example/").err =
        some "scraper: invalid url" :=
  ⟨rfl, (readabilityContent_failure_is_invalid_url exampleWorld "http://down.example/").1
    (Or.inr (Or.inl (by decide)))⟩

/-! ## `Fetch` -/

theorem readabilityContent_err {Document Node URL : Type}
    (w : World Document Node URL) (website : String)
    (h : (readabilityContent w website).err ≠ none) :
    (readabilityContent w website).content = "" := by
  unfold readabilityContent at h ⊢
  rcases hp : w.ParseRequestURI website with ⟨parsedURL, _ | e1⟩
  · rcases hg : w.httpGet website with ⟨respBody, _ | e2⟩
    · rcases ha : w.Parse respBody parsedURL with ⟨content, _ | e3⟩
      · simp [hp, hg, ha] at h
      · simp [ha]
    · simp
  · simp

theorem readabilityContent_trace {Document Node URL : Type}
    (w : World Document Node URL) (website : String) :
    ∀ e ∈ (readabilityContent w website).trace,
      e = Event.parseRequestURI website ∨ e = Event.httpGet website ∨
      e = Event.alternateParse (w.httpGet website).1 (w.ParseRequestURI website).1 := by
  unfold readabilityContent
  rcases hp : w.ParseRequestURI website with ⟨parsedURL, _ | e1⟩
  · rcases hg : w.httpGet website with ⟨respBody, _ | e2⟩
    · rcases ha : w.Parse respBody parsedURL with ⟨content, _ | e3⟩ <;> simp [ha]
    · simp
  · simp

theorem readabilityContent_trace_head {Document Node URL : Type}
    (w : World Document Node URL) (website : String) :
    Event.parseRequestURI website ∈ (readabilityContent w website).trace := by
  unfold readabilityContent
  rcases hp : w.ParseRequestURI website with ⟨parsedURL, _ | e1⟩
  · rcases hg : w.httpGet website with ⟨respBody, _ | e2⟩
    · rcases ha : w.Parse respBody parsedURL with ⟨content, _ | e3⟩ <;> simp [ha]
    · simp
  · simp

theorem readabilityContent_trace_eq {Document Node URL : Type}
    (w : World Document Node URL) (website : String) :
    (readabilityContent w website).trace =
      Event.parseRequestURI website ::
        (if (w.ParseRequestURI website).2 = none then
          Event.httpGet website ::
            (if (w.httpGet website).2 = none then
              [Event.alternateParse (w.httpGet website).1 (w.ParseRequestURI website).1]
            else [])
        else []) := by
  unfold readabilityContent
  rcases hp : w.ParseRequestURI website with ⟨parsedURL, _ | e1⟩
  · rcases hg : w.httpGet website with ⟨respBody, _ | e2⟩
    · rcases ha : w.Parse respBody parsedURL with ⟨content, _ | e3⟩ <;> simp [ha]
    · simp
  · simp

theorem scrapContent_trace {Document Node URL : Type}
    (w : World Document Node URL) (page rules : String) :
    ∀ e ∈ (scrapContent w page rules).trace, e.isSelector = true := by
  unfold scrapContent
  rcases hp : w.NewDocumentFromReader page with ⟨document, _ | e1⟩
  · intro e he
    simp only [List.mem_cons, List.mem_map] at he
    rcases he with rfl | rfl | ⟨i, _, rfl⟩ <;> rfl
  · intro e he
    simp only [List.mem_singleton] at he
    subst he
    rfl

/-- The three ways of lines 63-72, for the rule `resolved`. -/
theorem dispatch_trace {Document Node URL : Type} (w : World Document Node URL)
    (website body resolved : String) (r : Result URL)
    (hr : r =
      if resolved = "ra" then readabilityContent w website
      else if resolved ≠ "" then scrapContent w body resolved
      else ⟨(w.ExtractContent body).1, (w.ExtractContent body).2,
        [Event.extractContent body]⟩) :
    ∀ e ∈ r.trace,
      (e = Event.parseRequestURI website ∨ e = Event.httpGet website ∨
        e = Event.alternateParse (w.httpGet website).1 (w.ParseRequestURI website).1) ∨
      e.isSelector = true ∨ e = Event.extractContent body := by
  intro e he
  subst hr
  by_cases h1 : resolved = "ra"
  · rw [if_pos h1] at he
    exact Or.inl (readabilityContent_trace w website e he)
  · rw [if_neg h1] at he
    by_cases h2 : resolved ≠ ""
    · rw [if_pos h2] at he
      exact Or.inr (Or.inl (scrapContent_trace w body resolved e he))
    · rw [if_neg h2] at he
      simp only [List.mem_singleton] at he
      exact Or.inr (Or.inr he)

/-- The tail of `Fetch`, lines 56-78, once lines 38-53 have passed. -/
theorem Fetch_passed {Document Node URL : Type} (w : World Document Node URL)
    (websiteURL rules userAgent cookie : String)
    (allowSelfSignedCertificates useProxy : Bool) (response normalized : Response)
    (hget : w.Get websiteURL userAgent cookie allowSelfSignedCertificates useProxy =
      (response, none))
    (hsf : w.HasServerFailure response = false)
    (hct : isAllowedContentType w.unicodeToLower response.ContentType = true)
    (henc : w.EnsureUnicodeBody response = (normalized, none))
    (resolved : String) (r : Result URL) (lookup : List (Event URL))
    (hres : resolved = if rules = "" then
        getPredefinedScraperRules w.Domain w.predefinedRules normalized.EffectiveURL
      else rules)
    (hr : r =
      if resolved = "ra" then readabilityContent w normalized.EffectiveURL
      else if resolved ≠ "" then scrapContent w normalized.Body resolved
      else ⟨(w.ExtractContent normalized.Body).1, (w.ExtractContent normalized.Body).2,
        [Event.extractContent normalized.Body]⟩)
    (hl : lookup = if rules = "" then [Event.predefinedRules normalized.EffectiveURL] else []) :
    (Fetch w websiteURL rules userAgent cookie allowSelfSignedCertificates useProxy).err = r.err ∧
    (Fetch w websiteURL rules userAgent cookie allowSelfSignedCertificates useProxy).content =
      (if r.err = none then r.content else "") ∧
    (Fetch w websiteURL rules userAgent cookie allowSelfSignedCertificates useProxy).trace =
      Event.clientGet websiteURL userAgent cookie allowSelfSignedCertificates useProxy ::
        Event.ensureUnicodeBody :: (lookup ++ r.trace) := by
  have hF : Fetch w websiteURL rules userAgent cookie allowSelfSignedCertificates useProxy =
      if r.err ≠ none then
        ⟨"", r.err, Event.clientGet websiteURL userAgent cookie allowSelfSignedCertificates
          useProxy :: Event.ensureUnicodeBody :: (lookup ++ r.trace)⟩
      else
        ⟨r.content, none, Event.clientGet websiteURL userAgent cookie
          allowSelfSignedCertificates useProxy :: Event.ensureUnicodeBody ::
            (lookup ++ r.trace)⟩ := by
    subst hr hl hres
    unfold Fetch
    simp only [hget, hsf, hct, henc]
    by_cases h0 : rules = "" <;> simp [h0]
  rw [hF]
  by_cases h : r.err = none <;> simp [h]

theorem err_or_blank {URL : Type} (r : Result URL) :
    r.err = none ∨ (if r.err = none then r.content else "") = "" := by
  by_cases h : r.err = none <;> simp [h]

theorem Fetch_err_or_content {Document Node URL : Type} (w : World Document Node URL)
    (websiteURL rules userAgent cookie : String)
    (allowSelfSignedCertificates useProxy : Bool) :
    (Fetch w websiteURL rules userAgent cookie allowSelfSignedCertificates useProxy).err = none ∨
    (Fetch w websiteURL rules userAgent cookie allowSelfSignedCertificates useProxy).content =
      "" := by
  rcases hget : w.Get websiteURL userAgent cookie allowSelfSignedCertificates useProxy with
    ⟨response, _ | e⟩
  · cases hsf : w.HasServerFailure response
    · cases hct : isAllowedContentType w.unicodeToLower response.ContentType
      · right
        unfold Fetch
        simp [hget, hsf, hct]
      · rcases henc : w.EnsureUnicodeBody response with ⟨normalized, _ | e⟩
        · obtain ⟨he, hc, _⟩ := Fetch_passed w websiteURL rules userAgent cookie
            allowSelfSignedCertificates useProxy response normalized hget hsf hct henc
            _ _ _ rfl rfl rfl
          rw [he, hc]
          exact err_or_blank _
        · right
          unfold Fetch
          simp [hget, hsf, hct, henc]
    · right
      unfold Fetch
      simp [hget, hsf]
  · right
    unfold Fetch
    simp [hget]

/-- C2: when the primary fetch returns no error and no server failure and the
lower-cased content type starts neither with `text/html` nor with
`application/xhtml+xml`, `Fetch` returns the empty content and the error
`scraper: this resource is not a HTML document (<content type>)`, and the only
call it has made is the primary fetch: no encoding normalization, no rule
lookup, no selector engine, no heuristic engine, no alternate path. -/
theorem Fetch_unsupported_content_type {Document Node URL : Type}
    (w : World Document Node URL) (websiteURL rules userAgent cookie : String)
    (allowSelfSignedCertificates useProxy : Bool) (response : Response)
    (hget : w.Get websiteURL userAgent cookie allowSelfSignedCertificates useProxy =
      (response, none))
    (hsf : w.HasServerFailure response = false)
    (hct : ¬ "text/html".data <+: (ToLower w.unicodeToLower response.ContentType).data ∧
      ¬ "application/xhtml+xml".data <+:
        (ToLower w.unicodeToLower response.ContentType).data) :
    (Fetch w websiteURL rules userAgent cookie allowSelfSignedCertificates useProxy).content =
      "" ∧
    (Fetch w websiteURL rules userAgent cookie allowSelfSignedCertificates useProxy).err =
      some ("scraper: this resource is not a HTML document (" ++ response.ContentType ++ ")") ∧
    (∃ before after : String,
      (Fetch w websiteURL rules userAgent cookie allowSelfSignedCertificates useProxy).err =
        some (before ++ response.ContentType ++ after)) ∧
    (Fetch w websiteURL rules userAgent cookie allowSelfSignedCertificates useProxy).trace =
      [Event.clientGet websiteURL userAgent cookie allowSelfSignedCertificates useProxy] ∧
    (∀ e ∈ (Fetch w websiteURL rules userAgent cookie allowSelfSignedCertificates
        useProxy).trace,
      e.isEncoding = false ∧ e.isRuleResolution = false ∧ e.isSelector = false ∧
        e.isHeuristic = false ∧ e.isAlternate = false) := by
  have hno : isAllowedContentType w.unicodeToLower response.ContentType = false := by
    cases h : isAllowedContentType w.unicodeToLower response.ContentType
    · rfl
    · rcases (isAllowedContentType_iff _ _).1 h with h1 | h1
      · exact absurd h1 hct.1
      · exact absurd h1 hct.2
  have hF : Fetch w websiteURL rules userAgent cookie allowSelfSignedCertificates useProxy =
      ⟨"", some ("scraper: this resource is not a HTML document (" ++
        response.ContentType ++ ")"),
        [Event.clientGet websiteURL userAgent cookie allowSelfSignedCertificates useProxy]⟩ := by
    unfold Fetch
    simp [hget, hsf, hno]
  rw [hF]
  refine ⟨rfl, rfl, ⟨"scraper: this resource is not a HTML document (", ")", rfl⟩, rfl, ?_⟩
  intro e he
  simp only [List.mem_singleton] at he
  subst he
  exact ⟨rfl, rfl, rfl, rfl, rfl⟩

/-- C2 in the example world: the page `http://img.example/logo.png` is served
as `image/png`. -/
theorem Fetch_unsupported_content_type_witness :
    exampleWorld.Get "http://img.example/logo.png" "agent" "" false false =
        (exampleResponse "http://img.example/logo.png", none) ∧
      exampleWorld.HasServerFailure (exampleResponse "http://img.example/logo.png") = false ∧
      (Fetch exampleWorld "http://img.example/logo.png" "" "agent" "" false false).err =
        some "scraper: this resource is not a HTML document (image/png)" :=
  ⟨rfl, by decide,
    (Fetch_unsupported_content_type exampleWorld "http://img.example/logo.png" "" "agent" ""
      false false (exampleResponse "http://img.example/logo.png") rfl (by decide)
      (by decide)).2.1⟩

/-- C3: with the explicit rule `ra`, once the fetch, the server-failure test,
the content-type test and the encoding step have passed, `Fetch` returns the
content and the error of `readabilityContent` on the effective URL; the calls
it makes are the primary fetch, the encoding step and those of
`readabilityContent`, so no rule lookup, no selector engine and no heuristic
engine; and its result is the same for every rule table and every `url.Domain`. -/
theorem Fetch_explicit_ra_takes_alternate_path {Document Node URL : Type}
    (w : World Document Node URL) (websiteURL userAgent cookie : String)
    (allowSelfSignedCertificates useProxy : Bool) (response normalized : Response)
    (hget : w.Get websiteURL userAgent cookie allowSelfSignedCertificates useProxy =
      (response, none))
    (hsf : w.HasServerFailure response = false)
    (hct : isAllowedContentType w.unicodeToLower response.ContentType = true)
    (henc : w.EnsureUnicodeBody response = (normalized, none)) :
    (Fetch w websiteURL "ra" userAgent cookie allowSelfSignedCertificates useProxy).content =
      (readabilityContent w normalized.EffectiveURL).content ∧
    (Fetch w websiteURL "ra" userAgent cookie allowSelfSignedCertificates useProxy).err =
      (readabilityContent w normalized.EffectiveURL).err ∧
    (Fetch w websiteURL "ra" userAgent cookie allowSelfSignedCertificates useProxy).trace =
      Event.clientGet websiteURL userAgent cookie allowSelfSignedCertificates useProxy ::
        Event.ensureUnicodeBody ::
        (readabilityContent w normalized.EffectiveURL).trace ∧
    (∀ e ∈ (Fetch w websiteURL "ra" userAgent cookie allowSelfSignedCertificates useProxy).trace,
      e.isRuleResolution = false ∧ e.isSelector = false ∧ e.isHeuristic = false) ∧
    (∀ (table : List (String × String)) (domain : String → String),
      Fetch { w with predefinedRules := table, Domain := domain } websiteURL "ra" userAgent
          cookie allowSelfSignedCertificates useProxy =
            Fetch w websiteURL "ra" userAgent cookie allowSelfSignedCertificates useProxy) := by
  obtain ⟨he, hc, ht⟩ := Fetch_passed w websiteURL "ra" userAgent cookie
    allowSelfSignedCertificates useProxy response normalized hget hsf hct henc
    "ra" (readabilityContent w normalized.EffectiveURL) [] (by simp) (by simp) (by simp)
  have hc2 :
      (Fetch w websiteURL "ra" userAgent cookie allowSelfSignedCertificates useProxy).content =
        (readabilityContent w normalized.EffectiveURL).content := by
    rw [hc]
    by_cases h : (readabilityContent w normalized.EffectiveURL).err = none
    · rw [if_pos h]
    · rw [if_neg h, readabilityContent_err w _ h]
  rw [List.nil_append] at ht
  refine ⟨hc2, he, ht, ?_, ?_⟩
  · intro e hmem
    rw [ht] at hmem
    simp only [List.mem_cons] at hmem
    rcases hmem with rfl | rfl | hmem
    · exact ⟨rfl, rfl, rfl⟩
    · exact ⟨rfl, rfl, rfl⟩
    · rcases readabilityContent_trace w _ e hmem with rfl | rfl | rfl <;> exact ⟨rfl, rfl, rfl⟩
  · intro table domain
    unfold Fetch
    simp [hget, hsf, hct, henc, readabilityContent]

/-- C3 in the example world: `example.com` has a predefined rule, and the
explicit rule `ra` still gives the article of the alternate engine. -/
theorem Fetch_explicit_ra_takes_alternate_path_witness :
    getPredefinedScraperRules exampleWorld.Domain exampleWorld.predefinedRules
        "http://www.example.com/a" = ".post" ∧
      (Fetch exampleWorld "http://www.example.com/a" "ra" "agent" "" false false).content =
        "<div>article</div>" :=
  ⟨by decide,
    ((Fetch_explicit_ra_takes_alternate_path exampleWorld "http://www.example.com/a" "agent" ""
      false false (exampleResponse "http://www.example.com/a")
      (exampleResponse "http://www.example.com/a") rfl (by decide) (by decide) rfl).1).trans
      (by decide)⟩

/-- C9: whenever `Fetch` returns an error its content is the empty string,
whatever the collaborators return, also when the engine that was run returned
a text together with its error. -/
theorem Fetch_error_has_empty_content {Document Node URL : Type}
    (w : World Document Node URL) (websiteURL rules userAgent cookie : String)
    (allowSelfSignedCertificates useProxy : Bool) :
    (Fetch w websiteURL rules userAgent cookie allowSelfSignedCertificates useProxy).err ≠ none →
    (Fetch w websiteURL rules userAgent cookie allowSelfSignedCertificates useProxy).content =
      "" := by
  intro h
  rcases Fetch_err_or_content w websiteURL rules userAgent cookie allowSelfSignedCertificates
    useProxy with h1 | h1
  · exact absurd h1 h
  · exact h1

/-- C9 in the example world, whose heuristic engine returns `<p>half</p>`
together with an error on the page `<html>page</html>`: `Fetch` returns the
error and no content. -/
theorem Fetch_error_has_empty_content_witness :
    exampleWorld.ExtractContent "<html>page</html>" =
        ("<p>half</p>", some "readability: no candidate") ∧
      (Fetch exampleWorld "http://news.example.org/a" "" "agent" "" false false).err =
        some "readability: no candidate" ∧
      (Fetch exampleWorld "http://news.example.org/a" "" "agent" "" false false).content = "" :=
  ⟨rfl, by decide,
    Fetch_error_has_empty_content exampleWorld "http://news.example.org/a" "" "agent" ""
      false false (by decide)⟩

/-- The calls of `Fetch` after a primary fetch without error: apart from that
fetch and the encoding step, each is the rule lookup on the effective URL, a
call of the alternate path on the effective URL, a call of the selector engine
or the heuristic engine on the normalized body. -/
theorem Fetch_calls {Document Node URL : Type}
    (w : World Document Node URL) (websiteURL rules userAgent cookie : String)
    (allowSelfSignedCertificates useProxy : Bool) (response : Response)
    (hget : w.Get websiteURL userAgent cookie allowSelfSignedCertificates useProxy =
      (response, none)) :
    ∀ e ∈ (Fetch w websiteURL rules userAgent cookie allowSelfSignedCertificates useProxy).trace,
      e = Event.clientGet websiteURL userAgent cookie allowSelfSignedCertificates useProxy ∨ e =
        Event.ensureUnicodeBody ∨
      e = Event.predefinedRules (w.EnsureUnicodeBody response).1.EffectiveURL ∨
      e = Event.parseRequestURI (w.EnsureUnicodeBody response).1.EffectiveURL ∨ e =
        Event.httpGet (w.EnsureUnicodeBody response).1.EffectiveURL ∨
      e =
        Event.alternateParse (w.httpGet (w.EnsureUnicodeBody response).1.EffectiveURL).1
          (w.ParseRequestURI (w.EnsureUnicodeBody response).1.EffectiveURL).1 ∨
      e.isSelector = true ∨
      e = Event.extractContent (w.EnsureUnicodeBody response).1.Body := by
  intro e hmem
  cases hsf : w.HasServerFailure response
  · cases hct : isAllowedContentType w.unicodeToLower response.ContentType
    · left
      unfold Fetch at hmem
      simpa [hget, hsf, hct] using hmem
    · rcases henc : w.EnsureUnicodeBody response with ⟨normalized, _ | err⟩
      · obtain ⟨resolved, hres⟩ : ∃ s : String, s = if rules = "" then
            getPredefinedScraperRules w.Domain w.predefinedRules normalized.EffectiveURL
          else rules := ⟨_, rfl⟩
        obtain ⟨r, hr⟩ : ∃ r : Result URL, r =
            if resolved = "ra" then readabilityContent w normalized.EffectiveURL
            else if resolved ≠ "" then scrapContent w normalized.Body resolved
            else ⟨(w.ExtractContent normalized.Body).1, (w.ExtractContent normalized.Body).2,
              [Event.extractContent normalized.Body]⟩ := ⟨_, rfl⟩
        obtain ⟨_, _, ht⟩ := Fetch_passed w websiteURL rules userAgent cookie
          allowSelfSignedCertificates useProxy response normalized hget hsf hct henc
          resolved r _ hres hr rfl
        have hd := dispatch_trace w normalized.EffectiveURL normalized.Body resolved r hr
        rw [ht] at hmem
        simp only [List.mem_cons, List.mem_append] at hmem
        rcases hmem with h | h | h | h
        · exact Or.inl h
        · exact Or.inr (Or.inl h)
        · by_cases h0 : rules = ""
          · rw [if_pos h0] at h
            simp only [List.mem_singleton] at h
            exact Or.inr (Or.inr (Or.inl h))
          · rw [if_neg h0] at h
            simp at h
        · rcases hd e h with (h1 | h1 | h1) | h1 | h1
          · exact Or.inr (Or.inr (Or.inr (Or.inl h1)))
          · exact Or.inr (Or.inr (Or.inr (Or.inr (Or.inl h1))))
          · exact Or.inr (Or.inr (Or.inr (Or.inr (Or.inr (Or.inl h1)))))
          · exact Or.inr (Or.inr (Or.inr (Or.inr (Or.inr (Or.inr (Or.inl h1))))))
          · exact Or.inr (Or.inr (Or.inr (Or.inr (Or.inr (Or.inr (Or.inr h1))))))
      · unfold Fetch at hmem
        simp only [hget, hsf, hct, henc] at hmem
        simp at hmem
        rcases hmem with h | h
        · exact Or.inl h
        · exact Or.inr (Or.inl h)
  · left
    unfold Fetch at hmem
    simpa [hget, hsf] using hmem

/-- C7: when the primary fetch returns no error and the effective URL differs
from the requested one, every rule lookup, every URL check and every second
fetch that `Fetch` makes is made on the effective URL, the base URL given to
the alternate engine is the parsed effective URL, and none of these calls is
made on the requested URL; once lines 43-53 have passed, the lookup is made
when no explicit rule is given, and on the alternate path the result is that
of `readabilityContent` on the effective URL, which checks and fetches it. -/
theorem Fetch_uses_effective_url {Document Node URL : Type}
    (w : World Document Node URL) (websiteURL rules userAgent cookie : String)
    (allowSelfSignedCertificates useProxy : Bool) (response : Response)
    (hget : w.Get websiteURL userAgent cookie allowSelfSignedCertificates useProxy =
      (response, none))
    (hredirect : (w.EnsureUnicodeBody response).1.EffectiveURL ≠ websiteURL) :
    (∀ url,
      Event.predefinedRules url ∈
        (Fetch w websiteURL rules userAgent cookie allowSelfSignedCertificates useProxy).trace →
      url = (w.EnsureUnicodeBody response).1.EffectiveURL) ∧
    (∀ url,
      Event.parseRequestURI url ∈
        (Fetch w websiteURL rules userAgent cookie allowSelfSignedCertificates useProxy).trace →
      url = (w.EnsureUnicodeBody response).1.EffectiveURL) ∧
    (∀ url,
      Event.httpGet url ∈
        (Fetch w websiteURL rules userAgent cookie allowSelfSignedCertificates useProxy).trace →
      url = (w.EnsureUnicodeBody response).1.EffectiveURL) ∧
    (∀ body parsedURL,
      Event.alternateParse body parsedURL ∈
        (Fetch w websiteURL rules userAgent cookie allowSelfSignedCertificates useProxy).trace →
      parsedURL = (w.ParseRequestURI (w.EnsureUnicodeBody response).1.EffectiveURL).1) ∧
    Event.predefinedRules websiteURL ∉
      (Fetch w websiteURL rules userAgent cookie allowSelfSignedCertificates useProxy).trace ∧
    Event.parseRequestURI websiteURL ∉
      (Fetch w websiteURL rules userAgent cookie allowSelfSignedCertificates useProxy).trace ∧
    Event.httpGet websiteURL ∉
      (Fetch w websiteURL rules userAgent cookie allowSelfSignedCertificates useProxy).trace ∧
    (w.HasServerFailure response = false →
      isAllowedContentType w.unicodeToLower response.ContentType = true →
      (w.EnsureUnicodeBody response).2 = none →
      (rules = "" →
        Event.predefinedRules (w.EnsureUnicodeBody response).1.EffectiveURL ∈
          (Fetch w websiteURL rules userAgent cookie allowSelfSignedCertificates
            useProxy).trace) ∧
      ((if rules = "" then
            getPredefinedScraperRules w.Domain w.predefinedRules
              (w.EnsureUnicodeBody response).1.EffectiveURL
          else rules) = "ra" →
        (Fetch w websiteURL rules userAgent cookie allowSelfSignedCertificates useProxy).content =
          (readabilityContent w (w.EnsureUnicodeBody response).1.EffectiveURL).content ∧
        (Fetch w websiteURL rules userAgent cookie allowSelfSignedCertificates useProxy).err =
          (readabilityContent w (w.EnsureUnicodeBody response).1.EffectiveURL).err ∧
        Event.parseRequestURI (w.EnsureUnicodeBody response).1.EffectiveURL ∈
          (Fetch w websiteURL rules userAgent cookie allowSelfSignedCertificates
            useProxy).trace ∧
        ((w.ParseRequestURI (w.EnsureUnicodeBody response).1.EffectiveURL).2 = none →
          Event.httpGet (w.EnsureUnicodeBody response).1.EffectiveURL ∈
            (Fetch w websiteURL rules userAgent cookie allowSelfSignedCertificates
              useProxy).trace) ∧
        ((w.ParseRequestURI (w.EnsureUnicodeBody response).1.EffectiveURL).2 = none →
          (w.httpGet (w.EnsureUnicodeBody response).1.EffectiveURL).2 = none →
          Event.alternateParse (w.httpGet (w.EnsureUnicodeBody response).1.EffectiveURL).1
              (w.ParseRequestURI (w.EnsureUnicodeBody response).1.EffectiveURL).1 ∈
            (Fetch w websiteURL rules userAgent cookie allowSelfSignedCertificates
              useProxy).trace))) := by
  have hcalls := Fetch_calls w websiteURL rules userAgent cookie allowSelfSignedCertificates
    useProxy response hget
  have hlookup : ∀ url, Event.predefinedRules url ∈
    (Fetch w websiteURL rules userAgent cookie allowSelfSignedCertificates useProxy).trace → url =
      (w.EnsureUnicodeBody response).1.EffectiveURL := by
    intro url hmem
    rcases hcalls _ hmem with h | h | h | h | h | h | h | h <;>
      simp [Event.isSelector] at h
    exact h
  have hparse : ∀ url, Event.parseRequestURI url ∈
    (Fetch w websiteURL rules userAgent cookie allowSelfSignedCertificates useProxy).trace → url =
      (w.EnsureUnicodeBody response).1.EffectiveURL := by
    intro url hmem
    rcases hcalls _ hmem with h | h | h | h | h | h | h | h <;>
      simp [Event.isSelector] at h
    exact h
  have hsecond : ∀ url, Event.httpGet url ∈
    (Fetch w websiteURL rules userAgent cookie allowSelfSignedCertificates useProxy).trace → url =
      (w.EnsureUnicodeBody response).1.EffectiveURL := by
    intro url hmem
    rcases hcalls _ hmem with h | h | h | h | h | h | h | h <;>
      simp [Event.isSelector] at h
    exact h
  refine ⟨hlookup, hparse, hsecond, ?_, ?_, ?_, ?_, ?_⟩
  · intro body parsedURL hmem
    rcases hcalls _ hmem with h | h | h | h | h | h | h | h <;>
      simp [Event.isSelector] at h
    exact h.2
  · exact fun hmem => hredirect (hlookup _ hmem).symm
  · exact fun hmem => hredirect (hparse _ hmem).symm
  · exact fun hmem => hredirect (hsecond _ hmem).symm
  · intro hsf hct henc2
    have henc : w.EnsureUnicodeBody response = ((w.EnsureUnicodeBody response).1, none) := by
      rw [← henc2]
    obtain ⟨resolved, hres⟩ : ∃ s : String, s = if rules = "" then
        getPredefinedScraperRules w.Domain w.predefinedRules
          (w.EnsureUnicodeBody response).1.EffectiveURL
      else rules := ⟨_, rfl⟩
    obtain ⟨r, hr⟩ : ∃ r : Result URL, r =
        if resolved = "ra" then readabilityContent w (w.EnsureUnicodeBody response).1.EffectiveURL
        else if resolved ≠ "" then scrapContent w (w.EnsureUnicodeBody response).1.Body resolved
        else ⟨(w.ExtractContent (w.EnsureUnicodeBody response).1.Body).1,
          (w.ExtractContent (w.EnsureUnicodeBody response).1.Body).2,
          [Event.extractContent (w.EnsureUnicodeBody response).1.Body]⟩ := ⟨_, rfl⟩
    obtain ⟨he, hc, ht⟩ := Fetch_passed w websiteURL rules userAgent cookie
      allowSelfSignedCertificates useProxy response (w.EnsureUnicodeBody response).1
      hget hsf hct henc resolved r _ hres hr rfl
    refine ⟨?_, ?_⟩
    · intro h0
      rw [ht]
      simp [h0]
    · intro hra
      rw [← hres] at hra
      rw [if_pos hra] at hr
      subst hr
      have hc2 :
          (Fetch w websiteURL rules userAgent cookie allowSelfSignedCertificates
            useProxy).content =
          (readabilityContent w (w.EnsureUnicodeBody response).1.EffectiveURL).content := by
        rw [hc]
        by_cases h : (readabilityContent w (w.EnsureUnicodeBody response).1.EffectiveURL).err = none
        · rw [if_pos h]
        · rw [if_neg h, readabilityContent_err w _ h]
      refine ⟨hc2, he, ?_, ?_, ?_⟩
      · rw [ht]
        simp [readabilityContent_trace_eq]
      · intro h1
        rw [ht]
        simp [readabilityContent_trace_eq, h1]
      · intro h1 h2
        rw [ht]
        simp [readabilityContent_trace_eq, h1, h2]

/-- C7 in the example world: `http://a.example/x` redirects to
`http://b.example/y`, and with the rule `ra` the second fetch is made on
`http://b.example/y`. -/
theorem Fetch_uses_effective_url_witness :
    exampleWorld.Get "http://a.example/x" "agent" "" false false =
        (exampleResponse "http://a.example/x", none) ∧
      (exampleWorld.EnsureUnicodeBody (exampleResponse "http://a.example/x")).1.EffectiveURL =
        "http://b.example/y" ∧
      Event.httpGet "http://b.example/y" ∈
        (Fetch exampleWorld "http://a.example/x" "ra" "agent" "" false false).trace ∧
      Event.httpGet "http://a.example/x" ∉
        (Fetch exampleWorld "http://a.example/x" "ra" "agent" "" false false).trace :=
  ⟨rfl, rfl,
    (((Fetch_uses_effective_url exampleWorld "http://a.example/x" "ra" "agent" "" false false
      (exampleResponse "http://a.example/x") rfl (by decide)).2.2.2.2.2.2.2
      (by decide) (by decide) rfl).2 (by decide)).2.2.2.1 (by decide),
    (Fetch_uses_effective_url exampleWorld "http://a.example/x" "ra" "agent" "" false false
      (exampleResponse "http://a.example/x") rfl (by decide)).2.2.2.2.2.2.1⟩

/-- Lines 58-78 with no explicit rule and no table key in the domain of the
effective URL: `Fetch` runs the heuristic engine on the normalized body and
returns the engine's error, with the engine's content when that error is nil
and the empty string otherwise; its calls are the primary fetch, the encoding
step, the rule lookup and the heuristic engine. -/
theorem Fetch_unset_heuristic {Document Node URL : Type}
    (w : World Document Node URL) (websiteURL userAgent cookie : String)
    (allowSelfSignedCertificates useProxy : Bool) (response normalized : Response)
    (hget : w.Get websiteURL userAgent cookie allowSelfSignedCertificates useProxy =
      (response, none))
    (hsf : w.HasServerFailure response = false)
    (hct : isAllowedContentType w.unicodeToLower response.ContentType = true)
    (henc : w.EnsureUnicodeBody response = (normalized, none))
    (hnone : ∀ e ∈ w.predefinedRules,
      ¬ e.1.data <:+: (w.Domain normalized.EffectiveURL).data) :
    (Fetch w websiteURL "" userAgent cookie allowSelfSignedCertificates useProxy).err =
      (w.ExtractContent normalized.Body).2 ∧
    ((w.ExtractContent normalized.Body).2 = none →
      (Fetch w websiteURL "" userAgent cookie allowSelfSignedCertificates useProxy).content =
        (w.ExtractContent normalized.Body).1) ∧
    ((w.ExtractContent normalized.Body).2 ≠ none →
      (Fetch w websiteURL "" userAgent cookie allowSelfSignedCertificates useProxy).content = "") ∧
    (Fetch w websiteURL "" userAgent cookie allowSelfSignedCertificates useProxy).trace =
      [Event.clientGet websiteURL userAgent cookie allowSelfSignedCertificates useProxy,
        Event.ensureUnicodeBody, Event.predefinedRules normalized.EffectiveURL,
        Event.extractContent normalized.Body] ∧
    (∀ e ∈
      (Fetch w websiteURL "" userAgent cookie allowSelfSignedCertificates useProxy).trace,
        e.isSelector = false ∧ e.isAlternate = false) := by
  have hrule : getPredefinedScraperRules w.Domain w.predefinedRules
      normalized.EffectiveURL = "" := rangeRules_unset _ _ hnone
  obtain ⟨he, hc, ht⟩ := Fetch_passed w websiteURL "" userAgent cookie
    allowSelfSignedCertificates useProxy response normalized hget hsf hct henc
    "" ⟨(w.ExtractContent normalized.Body).1, (w.ExtractContent normalized.Body).2,
        [Event.extractContent normalized.Body]⟩
    [Event.predefinedRules normalized.EffectiveURL]
    (by simp [hrule]) (by simp) (by simp)
  have ht2 : (Fetch w websiteURL "" userAgent cookie allowSelfSignedCertificates
      useProxy).trace =
      [Event.clientGet websiteURL userAgent cookie allowSelfSignedCertificates useProxy,
        Event.ensureUnicodeBody, Event.predefinedRules normalized.EffectiveURL,
        Event.extractContent normalized.Body] := by
    rw [ht]
    rfl
  refine ⟨he, ?_, ?_, ht2, ?_⟩
  · intro h
    rw [hc]
    simp [h]
  · intro h
    rw [hc]
    simp [h]
  · intro e hmem
    rw [ht2] at hmem
    simp only [List.mem_cons, List.mem_singleton, List.not_mem_nil, or_false] at hmem
    rcases hmem with rfl | rfl | rfl | rfl <;> exact ⟨rfl, rfl⟩

/-- C10: with no explicit rule, once lines 38-53 have passed and the domain of
the effective URL contains no key of the table, `Fetch` runs the heuristic
engine on the fetched, encoding-normalized body and returns exactly the
content and the error of the engine; its calls are the primary fetch, the
encoding step, the rule lookup and the heuristic engine, so no selector
engine, no alternate path and no second fetch. The engine,
`readability.ExtractContent`, is not part of the package: `hengine` says of it
that it hands back a text or an error, not both. -/
theorem Fetch_unset_returns_heuristic_result {Document Node URL : Type}
    (w : World Document Node URL) (websiteURL userAgent cookie : String)
    (allowSelfSignedCertificates useProxy : Bool) (response normalized : Response)
    (hget : w.Get websiteURL userAgent cookie allowSelfSignedCertificates useProxy =
      (response, none))
    (hsf : w.HasServerFailure response = false)
    (hct : isAllowedContentType w.unicodeToLower response.ContentType = true)
    (henc : w.EnsureUnicodeBody response = (normalized, none))
    (hnone : ∀ e ∈ w.predefinedRules,
      ¬ e.1.data <:+: (w.Domain normalized.EffectiveURL).data)
    (hengine : (w.ExtractContent normalized.Body).2 = none ∨
      (w.ExtractContent normalized.Body).1 = "") :
    (Fetch w websiteURL "" userAgent cookie allowSelfSignedCertificates useProxy).content =
      (w.ExtractContent normalized.Body).1 ∧
    (Fetch w websiteURL "" userAgent cookie allowSelfSignedCertificates useProxy).err =
      (w.ExtractContent normalized.Body).2 ∧
    (Fetch w websiteURL "" userAgent cookie allowSelfSignedCertificates useProxy).trace =
      [Event.clientGet websiteURL userAgent cookie allowSelfSignedCertificates useProxy,
        Event.ensureUnicodeBody, Event.predefinedRules normalized.EffectiveURL,
        Event.extractContent normalized.Body] ∧
    (∀ e ∈ (Fetch w websiteURL "" userAgent cookie allowSelfSignedCertificates useProxy).trace,
      e.isSelector = false ∧ e.isAlternate = false) := by
  obtain ⟨he, hok, hfail, ht, hev⟩ := Fetch_unset_heuristic w websiteURL userAgent cookie
    allowSelfSignedCertificates useProxy response normalized hget hsf hct henc hnone
  refine ⟨?_, he, ht, hev⟩
  by_cases h : (w.ExtractContent normalized.Body).2 = none
  · exact hok h
  · rcases hengine with h1 | h1
    · exact absurd h1 h
    · rw [hfail h, h1]

/-- C10 in the example world: `http://a.example/x` lands on a page of
`b.example`, which has no predefined rule; the heuristic engine extracts
`<article>b</article>` from it and `Fetch` returns that text and no error. -/
theorem Fetch_unset_returns_heuristic_result_witness :
    (∀ e ∈ exampleWorld.predefinedRules, ¬ e.1.data <:+:
        (exampleWorld.Domain (exampleResponse "http://a.example/x").EffectiveURL).data) ∧
      exampleWorld.ExtractContent (exampleResponse "http://a.example/x").Body =
        ("<article>b</article>", none) ∧
      (Fetch exampleWorld "http://a.example/x" "" "agent" "" false false).content =
        "<article>b</article>" ∧
      (Fetch exampleWorld "http://a.example/x" "" "agent" "" false false).err = none :=
  ⟨by decide, rfl,
    (Fetch_unset_returns_heuristic_result exampleWorld "http://a.example/x" "agent" "" false
      false (exampleResponse "http://a.example/x") (exampleResponse "http://a.example/x")
      rfl (by decide) (by decide) rfl (by decide) (Or.inl rfl)).1,
    (Fetch_unset_returns_heuristic_result exampleWorld "http://a.example/x" "agent" "" false
      false (exampleResponse "http://a.example/x") (exampleResponse "http://a.example/x")
      rfl (by decide) (by decide) rfl (by decide) (Or.inl rfl)).2.1⟩

end Scraper
